import Mathlib

/-!
Shallow embedding of the inventory web service (`api/database.py`, `api/app.py`):
the data model (locations / regions / inventory items / derived tags), the
repository operations, the breadcrumb walker, the search ranker and the LED
lookup route, together with theorems settling the specification claims.

Conventions of the embedding:
* the SQLite database is a record of four row lists, in insertion order;
* `fetchone` on a lookup by id is `List.find?` over the row list;
* SQLite `LIKE` is modelled as ASCII-case-insensitive substring matching
  (SQLite's default `LIKE` is case-insensitive on ASCII);
* Python truthiness on an optional integer id (`while current_parent_id:`,
  `if not item['location_id']`) is `truthyId`: `None` and `0` are falsy;
* the unbounded Python `while` loop of the breadcrumb walker is given an
  explicit fuel parameter; `none` means the fuel was exhausted while the loop
  was still running, so `∀ fuel, walk fuel = none` states divergence;
* numeric region coordinates are rationals (exact arithmetic);
* timestamps and image files on disk are outside the model.
-/

namespace Inventory

/-! ### Python string primitives (ASCII semantics of `str.lower`, `str.split`) -/

/-- Python `str.lower()` restricted to ASCII, character by character. -/
def lowerStr (s : String) : String :=
  ⟨s.data.map Char.toLower⟩

/-- Helper for `splitWords`: accumulates the current word (reversed). -/
def splitWordsAux : List Char → List Char → List String
  | [], cur => if cur.isEmpty then [] else [⟨cur.reverse⟩]
  | c :: rest, cur =>
    if c.isWhitespace then
      if cur.isEmpty then splitWordsAux rest []
      else ⟨cur.reverse⟩ :: splitWordsAux rest []
    else splitWordsAux rest (c :: cur)

/-- Python `str.split()` with no argument: split on whitespace runs, no empty words. -/
def splitWords (s : String) : List String :=
  splitWordsAux s.data []

/-- Substring test on character lists. -/
def containsSub (l pat : List Char) : Bool :=
  match l with
  | [] => pat.isEmpty
  | _ :: t => pat.isPrefixOf l || containsSub t pat

/-- SQLite `s LIKE '%pat%'`: case-insensitive (ASCII) substring test. -/
def likeContains (s pat : String) : Bool :=
  containsSub (lowerStr s).data (lowerStr pat).data

/-- SQLite `s LIKE 'pat%'`: case-insensitive (ASCII) starts-with test. -/
def likeStartsWith (s pat : String) : Bool :=
  (lowerStr pat).data.isPrefixOf (lowerStr s).data

/-- Semantics of `LIKE` on a nullable column: `NULL LIKE pat` is not true. -/
def optLikeContains : Option String → String → Bool
  | none, _ => false
  | some s, pat => likeContains s pat

/-- Python truthiness of an optional integer id: `None` and `0` are falsy. -/
def truthyId : Option Nat → Bool
  | none => false
  | some n => n != 0

/-! ### Data model (`migrations` schema as used by `database.py`) -/

/-- A row of the `locations` table. -/
structure Location where
  id : Nat
  name : String
  description : Option String
  parent_id : Option Nat
  image_path : Option String
deriving DecidableEq, Repr

/-- A row of the `location_regions` table. -/
structure Region where
  id : Nat
  location_id : Nat
  name : String
  x_coord : Rat
  y_coord : Rat
  width : Rat
  height : Rat
deriving DecidableEq, Repr

/-- A row of the `inventory_items` table. -/
structure Item where
  id : Nat
  name : String
  description : Option String
  quantity : Int
  image_path : Option String
  location_id : Option Nat
  region_id : Option Nat
deriving DecidableEq, Repr

/-- A row of the `item_tags` table. -/
structure Tag where
  item_id : Nat
  tag : String
deriving DecidableEq, Repr

/-- The whole store: the four tables, rows in insertion order. -/
structure DB where
  locations : List Location
  regions : List Region
  items : List Item
  tags : List Tag
deriving DecidableEq, Repr

/-! ### Point lookups (`SELECT * FROM ... WHERE id = ?` + `fetchone`) -/

/-- Embedding of `get_location_by_id` from `database.py`. -/
def get_location_by_id (db : DB) (location_id : Nat) : Option Location :=
  db.locations.find? (fun l => l.id == location_id)

/-- Embedding of `get_region_by_id` from `database.py`. -/
def get_region_by_id (db : DB) (region_id : Nat) : Option Region :=
  db.regions.find? (fun r => r.id == region_id)

/-- The denormalized row shape produced by the item queries
(`SELECT i.*, l.name AS location_name, r.name AS region_name ... LEFT JOIN ...`). -/
structure ItemRow where
  item : Item
  location_name : Option String
  region_name : Option String
deriving DecidableEq, Repr

/-- The `LEFT JOIN locations` contribution: the joined location name, `NULL`
when `location_id` is `NULL` or dangling. -/
def locationNameFor (db : DB) (location_id : Option Nat) : Option String :=
  location_id.bind (fun l => (get_location_by_id db l).map (fun loc => loc.name))

/-- The `LEFT JOIN location_regions` contribution. -/
def regionNameFor (db : DB) (region_id : Option Nat) : Option String :=
  region_id.bind (fun r => (get_region_by_id db r).map (fun reg => reg.name))

/-- Projection of one item to the denormalized row shape. -/
def itemRow (db : DB) (i : Item) : ItemRow :=
  ⟨i, locationNameFor db i.location_id, regionNameFor db i.region_id⟩

/-- Embedding of `get_inventory_item_by_id` from `database.py` (left joins included). -/
def get_inventory_item_by_id (db : DB) (item_id : Nat) : Option ItemRow :=
  (db.items.find? (fun i => i.id == item_id)).map (itemRow db)

/-! ### Writes -/

/-- Embedding of `delete_location` (`DELETE FROM locations WHERE id = ?`) from `database.py`.
No cascade: regions, items and tags are untouched. -/
def delete_location (db : DB) (location_id : Nat) : DB :=
  { db with locations := db.locations.filter (fun l => l.id != location_id) }

/-- The `cursor.lastrowid` of a fresh insert: one more than the largest row id. -/
def nextItemId (db : DB) : Nat :=
  (db.items.map Item.id).foldr max 0 + 1

/-- The tag rows inserted by `add_inventory_item` / `update_inventory_item`:
the lowercased name (when the name is truthy), plus every lowercased
whitespace-separated word of the description longer than 3 characters
(when the description is truthy). -/
def derivedTags (item_id : Nat) (name : String) (description : Option String) : List Tag :=
  (if name ≠ "" then [⟨item_id, lowerStr name⟩] else [])
    ++ (match description with
        | none => []
        | some d =>
          if d ≠ "" then
            ((splitWords (lowerStr d)).filter (fun w => w.length > 3)).map
              (fun w => ⟨item_id, w⟩)
          else [])

/-- Embedding of `add_inventory_item` from `database.py`: insert the item row, then insert
the derived tag rows. Returns the updated store and the new row id. -/
def add_inventory_item (db : DB) (name : String) (description : Option String)
    (quantity : Int) (image_path : Option String) (location_id : Option Nat)
    (region_id : Option Nat) : DB × Nat :=
  let item_id := nextItemId db
  (⟨db.locations, db.regions,
    db.items ++ [⟨item_id, name, description, quantity, image_path, location_id, region_id⟩],
    db.tags ++ derivedTags item_id name description⟩, item_id)

/-- Embedding of `update_inventory_item` from `database.py`: when no `image_path` is
supplied the stored one is re-read and kept; every other column is set to the
supplied value; the item's tag rows are deleted and regenerated. -/
def update_inventory_item (db : DB) (item_id : Nat) (name : String)
    (description : Option String) (quantity : Int) (image_path : Option String)
    (location_id : Option Nat) (region_id : Option Nat) : DB :=
  let image_path' :=
    match image_path with
    | none =>
      match db.items.find? (fun i => i.id == item_id) with
      | some cur => cur.image_path
      | none => none
    | some p => some p
  { db with
    items := db.items.map (fun i =>
      if i.id == item_id then
        { i with name := name, description := description, quantity := quantity,
                 image_path := image_path', location_id := location_id,
                 region_id := region_id }
      else i),
    tags := db.tags.filter (fun t => t.item_id != item_id)
              ++ derivedTags item_id name description }

/-! ### Search (`search_items` from `database.py`) -/

/-- The rows of `inventory_items i LEFT JOIN item_tags t ON i.id = t.item_id`:
one row per tag of the item, or a single row with a `NULL` tag when the item
has no tags. -/
def tagJoinRows (db : DB) : List (Item × Option String) :=
  db.items.flatMap (fun i =>
    let ts := db.tags.filter (fun t => t.item_id == i.id)
    if ts.isEmpty then [(i, none)] else ts.map (fun t => (i, some t.tag)))

/-- The `WHERE` clause: `i.name LIKE %q% OR i.description LIKE %q% OR t.tag LIKE %q%`. -/
def rowMatches (q : String) (row : Item × Option String) : Bool :=
  likeContains row.1.name q || optLikeContains row.1.description q
    || optLikeContains row.2 q

/-- The `ORDER BY CASE` ranking: 1 name starts with the query, 2 name contains
it, 3 description contains it, 4 everything else. -/
def tierOf (q : String) (i : Item) : Nat :=
  if likeStartsWith i.name q then 1
  else if likeContains i.name q then 2
  else if optLikeContains i.description q then 3
  else 4

/-- Comparison used by the `ORDER BY`: ascending tier. -/
def tierLE (q : String) (a b : ItemRow) : Prop :=
  tierOf q a.item ≤ tierOf q b.item

instance (q : String) : DecidableRel (tierLE q) :=
  fun a b => inferInstanceAs (Decidable (tierOf q a.item ≤ tierOf q b.item))

instance (q : String) : IsTotal ItemRow (tierLE q) :=
  ⟨fun a b => Nat.le_total (tierOf q a.item) (tierOf q b.item)⟩

instance (q : String) : IsTrans ItemRow (tierLE q) :=
  ⟨fun _ _ _ hab hbc => Nat.le_trans hab hbc⟩

/-- Embedding of `search_items` from `database.py`: empty query short-circuits to `[]`;
otherwise filter the tag-join rows by the `WHERE` clause, project to the
denormalized item row (`SELECT DISTINCT i.*, l.name, r.name` drops the tag
column), de-duplicate, and sort ascending by tier. -/
def search_items (db : DB) (q : String) : List ItemRow :=
  if q = "" then []
  else
    List.insertionSort (tierLE q)
      ((((tagJoinRows db).filter (rowMatches q)).map
          (fun row => itemRow db row.1)).dedup)

/-- The `/api/search` route from `app.py`: an absent or empty `q` parameter
returns the empty list without querying. -/
def search_route (db : DB) (q : Option String) : List ItemRow :=
  match q with
  | none => []
  | some s => if s = "" then [] else search_items db s

/-! ### Breadcrumbs (`get_location_breadcrumbs` from `database.py`) -/

/-- The `while current_parent_id:` loop, with explicit fuel. The truthiness
test comes first, exactly as in the source; `none` means the fuel ran out
while the loop was still running. -/
def breadcrumbWalk (db : DB) (fuel : Nat) (pid : Option Nat)
    (acc : List Location) : Option (List Location) :=
  match pid with
  | none => some acc
  | some p =>
    if p = 0 then some acc
    else
      match fuel with
      | 0 => none
      | fuel' + 1 =>
        match get_location_by_id db p with
        | some parent => breadcrumbWalk db fuel' parent.parent_id (parent :: acc)
        | none => some acc

/-- Embedding of `get_location_breadcrumbs` from `database.py`: empty result for a missing
start; otherwise the loop above starting from the location itself. -/
def get_location_breadcrumbs (db : DB) (fuel : Nat) (location_id : Nat) :
    Option (List Location) :=
  match get_location_by_id db location_id with
  | none => some []
  | some loc => breadcrumbWalk db fuel loc.parent_id [loc]

/-! ### LED lookup (`led_route` from `app.py`) -/

/-- The four observably distinct outcomes of `/api/led/<item_id>`. -/
inductive LedResult where
  | itemNotFound
  | noLocationContext
  | locationOrRegionNotFound
  | ok (item : Item) (location : Location) (region : Region) (ledX ledY : Rat)
deriving DecidableEq, Repr

/-- Embedding of `led_route` from `app.py`: 404 when the item is missing, a distinct 400
when `location_id` or `region_id` is falsy, 404 when the referenced location
or region is missing, else the region's center point. -/
def led_route (db : DB) (item_id : Nat) : LedResult :=
  match get_inventory_item_by_id db item_id with
  | none => LedResult.itemNotFound
  | some row =>
    if !truthyId row.item.location_id || !truthyId row.item.region_id then
      LedResult.noLocationContext
    else
      match row.item.location_id, row.item.region_id with
      | some lid, some rid =>
        match get_location_by_id db lid, get_region_by_id db rid with
        | some location, some region =>
          LedResult.ok row.item location region
            (region.x_coord + region.width / 2)
            (region.y_coord + region.height / 2)
        | _, _ => LedResult.locationOrRegionNotFound
      | _, _ => LedResult.noLocationContext

/-! ### Inventory update route (`update_inventory_item_route` from `app.py`) -/

/-- The multipart form fields of a PUT `/api/inventory/<id>` request, already
parsed: `none` models an absent (or empty, for the numeric fields) field;
`image` is the stored filename when a new image was uploaded. -/
structure UpdateItemForm where
  name : Option String
  description : Option String
  quantity : Option Int
  locationId : Option Nat
  regionId : Option Nat
  image : Option String
deriving Repr

/-- Embedding of `update_inventory_item_route` from `app.py`, for a request whose `name`
field is present (the stored schema requires a name): 404 (`none`) when the
item is missing; otherwise `quantity` defaults to `1` when absent, the stored
`image_path` is kept when no new image is uploaded, and the repository update
runs. -/
def update_inventory_item_route (db : DB) (item_id : Nat) (n : String)
    (form : UpdateItemForm) : Option DB :=
  match get_inventory_item_by_id db item_id with
  | none => none
  | some row =>
    let quantity := match form.quantity with
      | some v => v
      | none => 1
    let image_path := match form.image with
      | some f => some f
      | none => row.item.image_path
    some (update_inventory_item db item_id n form.description quantity
      (image_path) form.locationId form.regionId)

/-- The tags currently stored for an item, as plain strings. -/
def tagsFor (db : DB) (item_id : Nat) : List String :=
  (db.tags.filter (fun t => t.item_id == item_id)).map Tag.tag

/-- An item matches the search `WHERE` clause when its name or description
contains the query, or one of its stored tags does. -/
def itemMatches (db : DB) (q : String) (i : Item) : Bool :=
  likeContains i.name q || optLikeContains i.description q
    || (db.tags.filter (fun t => t.item_id == i.id)).any (fun t => likeContains t.tag q)

/-! ### Concrete stores used by the witnesses and examples -/

/-- Store for the ranking example of the spec: an item named exactly
"Widget", one named "Blue Widget", and one whose description contains
"widget-like"; tags are the ones the repository would derive. -/
def exDb : DB :=
  ⟨[], [],
   [⟨1, "Widget", none, 1, none, none, none⟩,
    ⟨2, "Blue Widget", none, 1, none, none, none⟩,
    ⟨3, "Shelf", some "widget-like holder", 1, none, none, none⟩],
   [⟨1, "widget"⟩, ⟨2, "blue widget"⟩, ⟨3, "shelf"⟩, ⟨3, "widget-like"⟩,
    ⟨3, "holder"⟩]⟩

/-- A corrupt hierarchy: location 1's parent is 2 and location 2's parent is 1. -/
def cycDb : DB :=
  ⟨[⟨1, "A", none, some 2, none⟩, ⟨2, "B", none, some 1, none⟩], [], [], []⟩

/-- A clean three-level hierarchy (Room → Shelf → Bin) plus one location whose
parent reference is dangling. -/
def bcDb : DB :=
  ⟨[⟨1, "Room", none, none, none⟩, ⟨2, "Shelf", none, some 1, none⟩,
    ⟨3, "Bin", none, some 2, none⟩, ⟨4, "Orphan", none, some 99, none⟩],
   [], [], []⟩

/-- Store for the LED lookup cases: item 1 fully placed in region 7 of
location 10; item 2 placed with no region; item 3 with a dangling location. -/
def ledDb : DB :=
  ⟨[⟨10, "Shelf A", none, none, none⟩],
   [⟨7, 10, "Bin", 10, 20, 40, 60⟩],
   [⟨1, "Widget", none, 1, none, some 10, some 7⟩,
    ⟨2, "Loose", none, 1, none, some 10, none⟩,
    ⟨3, "Dangling", none, 1, none, some 99, some 7⟩],
   []⟩

/-- Store with one item several of whose tags contain the query "widget". -/
def multiTagDb : DB :=
  ⟨[], [],
   [⟨1, "Widget", some "fancy widget gadget", 1, none, none, none⟩],
   [⟨1, "widget"⟩, ⟨1, "fancy"⟩, ⟨1, "widget"⟩, ⟨1, "gadget"⟩]⟩

/-! ### Theorems -/

/-- Claim C8: `searchItems` with an empty or absent query string returns the
empty result list, not an error, regardless of the stored items — both at the
route level (absent or empty `q`) and at the repository level. -/
theorem search_empty_query_returns_nil :
    (∀ db : DB, search_route db none = [])
      ∧ (∀ db : DB, search_route db (some "") = [])
      ∧ (∀ db : DB, search_items db "" = []) :=
  ⟨fun _ => rfl, fun _ => rfl, fun _ => rfl⟩

/-- On the cyclic store, the walk starting from either node of the cycle
exhausts any amount of fuel. -/
lemma cycWalk_none : ∀ fuel : Nat,
    (∀ acc, breadcrumbWalk cycDb fuel (some 1) acc = none)
      ∧ (∀ acc, breadcrumbWalk cycDb fuel (some 2) acc = none) := by
  intro fuel
  induction fuel with
  | zero => exact ⟨fun _ => rfl, fun _ => rfl⟩
  | succ n ih =>
    refine ⟨fun acc => ?_, fun acc => ?_⟩
    · have h : breadcrumbWalk cycDb (n + 1) (some 1) acc
          = breadcrumbWalk cycDb n (some 2) (⟨1, "A", none, some 2, none⟩ :: acc) := rfl
      rw [h]
      exact ih.2 _
    · have h : breadcrumbWalk cycDb (n + 1) (some 2) acc
          = breadcrumbWalk cycDb n (some 1) (⟨2, "B", none, some 1, none⟩ :: acc) := rfl
      rw [h]
      exact ih.1 _

/-- Claim C2: the source breadcrumb walker has no cycle guard. On the
hierarchy where location 1's parent is 2 and location 2's parent is 1, the
loop is still running after any number of iterations: it never produces a
result (and a fortiori never a corruption error), for every fuel bound. -/
theorem breadcrumb_cycle_never_terminates :
    ∀ fuel : Nat, get_location_breadcrumbs cycDb fuel 1 = none := by
  intro fuel
  have h : get_location_breadcrumbs cycDb fuel 1
      = breadcrumbWalk cycDb fuel (some 2) [⟨1, "A", none, some 2, none⟩] := rfl
  rw [h]
  exact (cycWalk_none fuel).2 _

/-- The walk only prepends to its accumulator: a suffix of the accumulator is
carried through to the result unchanged. -/
lemma breadcrumbWalk_append (db : DB) :
    ∀ (fuel : Nat) (pid : Option Nat) (acc ext : List Location),
      breadcrumbWalk db fuel pid (acc ++ ext)
        = (breadcrumbWalk db fuel pid acc).map (fun path => path ++ ext) := by
  intro fuel
  induction fuel with
  | zero =>
    intro pid acc ext
    rcases pid with _ | p
    · rfl
    · by_cases hp : p = 0 <;> simp [breadcrumbWalk, hp]
  | succ n ih =>
    intro pid acc ext
    rcases pid with _ | p
    · rfl
    · by_cases hp : p = 0
      · simp [breadcrumbWalk, hp]
      · rcases hL : get_location_by_id db p with _ | parent
        · simp [breadcrumbWalk, hp, hL]
        · have h1 : breadcrumbWalk db (n + 1) (some p) (acc ++ ext)
              = breadcrumbWalk db n parent.parent_id (parent :: (acc ++ ext)) := by
            simp [breadcrumbWalk, hp, hL]
          have h2 : breadcrumbWalk db (n + 1) (some p) acc
              = breadcrumbWalk db n parent.parent_id (parent :: acc) := by
            simp [breadcrumbWalk, hp, hL]
          rw [h1, h2, ← List.cons_append, ih]

/-- Claim C4: breadcrumb resolution returns the root-first ancestor path:
a missing start yields the empty result; a root yields just itself; a
3-level-deep location yields its 3 ancestors root-to-leaf; a dangling parent
reference truncates the path without error; and one resolved parent step
prepends the parent's own breadcrumb path. -/
theorem breadcrumbs_root_first_path :
    (∀ (db : DB) (fuel iid : Nat), get_location_by_id db iid = none →
        get_location_breadcrumbs db fuel iid = some [])
      ∧ (∀ (db : DB) (fuel iid : Nat) (loc : Location),
          get_location_by_id db iid = some loc → loc.parent_id = none →
          get_location_breadcrumbs db fuel iid = some [loc])
      ∧ (∀ (db : DB) (fuel c : Nat) (C B A : Location) (b a : Nat),
          get_location_by_id db c = some C → C.parent_id = some b → b ≠ 0 →
          get_location_by_id db b = some B → B.parent_id = some a → a ≠ 0 →
          get_location_by_id db a = some A → A.parent_id = none →
          get_location_breadcrumbs db (fuel + 2) c = some [A, B, C])
      ∧ (∀ (db : DB) (fuel iid : Nat) (loc : Location) (p : Nat),
          get_location_by_id db iid = some loc → loc.parent_id = some p → p ≠ 0 →
          get_location_by_id db p = none →
          get_location_breadcrumbs db (fuel + 1) iid = some [loc])
      ∧ (∀ (db : DB) (fuel iid : Nat) (loc : Location) (p : Nat) (parent : Location),
          get_location_by_id db iid = some loc → loc.parent_id = some p → p ≠ 0 →
          get_location_by_id db p = some parent →
          get_location_breadcrumbs db (fuel + 1) iid
            = (get_location_breadcrumbs db fuel p).map (fun path => path ++ [loc])) := by
  refine ⟨?_, ?_, ?_, ?_, ?_⟩
  · intro db fuel iid h
    simp [get_location_breadcrumbs, h]
  · intro db fuel iid loc h hp
    simp [get_location_breadcrumbs, h, hp, breadcrumbWalk]
  · intro db fuel c C B A b a hC hCp hb hB hBp ha hA hAp
    simp [get_location_breadcrumbs, hC, hCp, hb, hB, hBp, ha, hA, hAp, breadcrumbWalk]
  · intro db fuel iid loc p h hp hp0 hmiss
    simp [get_location_breadcrumbs, h, hp, hp0, hmiss, breadcrumbWalk]
  · intro db fuel iid loc p parent h hp hp0 hpar
    have h1 : get_location_breadcrumbs db (fuel + 1) iid
        = breadcrumbWalk db fuel parent.parent_id (parent :: [loc]) := by
      simp [get_location_breadcrumbs, h, hp, hp0, hpar, breadcrumbWalk]
    have h2 : get_location_breadcrumbs db fuel p
        = breadcrumbWalk db fuel parent.parent_id [parent] := by
      simp [get_location_breadcrumbs, hpar]
    rw [h1, h2]
    have h3 : parent :: [loc] = [parent] ++ [loc] := rfl
    rw [h3, breadcrumbWalk_append]

/-- Witness for claim C4 on the concrete Room → Shelf → Bin store. -/
theorem breadcrumbs_root_first_path_witness :
    get_location_breadcrumbs bcDb 12 3
        = some [⟨1, "Room", none, none, none⟩, ⟨2, "Shelf", none, some 1, none⟩,
            ⟨3, "Bin", none, some 2, none⟩]
      ∧ get_location_breadcrumbs bcDb 5 1 = some [⟨1, "Room", none, none, none⟩]
      ∧ get_location_breadcrumbs bcDb 5 42 = some []
      ∧ get_location_breadcrumbs bcDb 6 4 = some [⟨4, "Orphan", none, some 99, none⟩] :=
  ⟨breadcrumbs_root_first_path.2.2.1 bcDb 10 3
      ⟨3, "Bin", none, some 2, none⟩ ⟨2, "Shelf", none, some 1, none⟩
      ⟨1, "Room", none, none, none⟩ 2 1
      (by decide) rfl (by decide) (by decide) rfl (by decide) (by decide) rfl,
   breadcrumbs_root_first_path.2.1 bcDb 5 1 ⟨1, "Room", none, none, none⟩ (by decide) rfl,
   breadcrumbs_root_first_path.1 bcDb 5 42 (by decide),
   breadcrumbs_root_first_path.2.2.2.1 bcDb 5 4 ⟨4, "Orphan", none, some 99, none⟩ 99
     (by decide) rfl (by decide) (by decide)⟩

/-- Claim C5: the LED lookup's error cases. A missing item is a not-found; an
existing item with a null `location_id` or `region_id` is the distinct
no-location-context outcome (which differs from not-found); an item whose
referenced location or region no longer resolves is again a not-found. -/
theorem led_route_error_cases :
    (∀ (db : DB) (iid : Nat), get_inventory_item_by_id db iid = none →
        led_route db iid = LedResult.itemNotFound)
      ∧ (∀ (db : DB) (iid : Nat) (row : ItemRow),
          get_inventory_item_by_id db iid = some row →
          (row.item.location_id = none ∨ row.item.region_id = none) →
          led_route db iid = LedResult.noLocationContext)
      ∧ (∀ (db : DB) (iid : Nat) (row : ItemRow) (lid rid : Nat),
          get_inventory_item_by_id db iid = some row →
          row.item.location_id = some lid → lid ≠ 0 →
          row.item.region_id = some rid → rid ≠ 0 →
          (get_location_by_id db lid = none ∨ get_region_by_id db rid = none) →
          led_route db iid = LedResult.locationOrRegionNotFound)
      ∧ LedResult.noLocationContext ≠ LedResult.itemNotFound := by
  refine ⟨?_, ?_, ?_, by decide⟩
  · intro db iid h
    simp [led_route, h]
  · intro db iid row h hnull
    rcases hnull with hnull | hnull <;>
      simp [led_route, h, hnull, truthyId]
  · intro db iid row lid rid h hlid hlid0 hrid hrid0 hmiss
    rcases hmiss with hmiss | hmiss
    · simp [led_route, h, hlid, hrid, hlid0, hrid0, truthyId, hmiss]
    · rcases hL : get_location_by_id db lid with _ | loc <;>
        simp [led_route, h, hlid, hrid, hlid0, hrid0, truthyId, hmiss, hL]

/-- Witness for claim C5 on the concrete LED store: item 42 is missing,
item 2 has no region, item 3 references a missing location. -/
theorem led_route_error_cases_witness :
    led_route ledDb 42 = LedResult.itemNotFound
      ∧ led_route ledDb 2 = LedResult.noLocationContext
      ∧ led_route ledDb 3 = LedResult.locationOrRegionNotFound :=
  ⟨led_route_error_cases.1 ledDb 42 (by decide),
   led_route_error_cases.2.1 ledDb 2
     ⟨⟨2, "Loose", none, 1, none, some 10, none⟩, some "Shelf A", none⟩
     (by decide) (Or.inr rfl),
   led_route_error_cases.2.2.1 ledDb 3
     ⟨⟨3, "Dangling", none, 1, none, some 99, some 7⟩, none, some "Bin"⟩ 99 7
     (by decide) rfl (by decide) rfl (by decide) (Or.inl (by decide))⟩

/-- Claim C6: when the item, its location and its region all resolve, the LED
lookup returns the region's center point `(x + width/2, y + height/2)`
computed from the stored coordinates, alongside the item, location and region;
on the concrete region at (10, 20) sized 40×60 the center is (30, 50). -/
theorem led_route_center_point :
    (∀ (db : DB) (iid : Nat) (row : ItemRow) (lid rid : Nat) (loc : Location)
        (reg : Region),
        get_inventory_item_by_id db iid = some row →
        row.item.location_id = some lid → lid ≠ 0 →
        row.item.region_id = some rid → rid ≠ 0 →
        get_location_by_id db lid = some loc →
        get_region_by_id db rid = some reg →
        led_route db iid = LedResult.ok row.item loc reg
          (reg.x_coord + reg.width / 2) (reg.y_coord + reg.height / 2))
      ∧ led_route ledDb 1 = LedResult.ok ⟨1, "Widget", none, 1, none, some 10, some 7⟩
          ⟨10, "Shelf A", none, none, none⟩ ⟨7, 10, "Bin", 10, 20, 40, 60⟩ 30 50 := by
  constructor
  · intro db iid row lid rid loc reg hrow hlid hlid0 hrid hrid0 hloc hreg
    simp [led_route, hrow, hlid, hrid, hloc, hreg, truthyId, hlid0, hrid0]
  · have e1 : (10 : Rat) + 40 / 2 = 30 := by norm_num
    have e2 : (20 : Rat) + 60 / 2 = 50 := by norm_num
    rw [← e1, ← e2]
    rfl

/-- Witness for claim C6: the general center-point theorem applied to the
concrete LED store. -/
theorem led_route_center_point_witness :
    led_route ledDb 1 = LedResult.ok ⟨1, "Widget", none, 1, none, some 10, some 7⟩
        ⟨10, "Shelf A", none, none, none⟩ ⟨7, 10, "Bin", 10, 20, 40, 60⟩
        (10 + 40 / 2) (20 + 60 / 2) :=
  led_route_center_point.1 ledDb 1
    ⟨⟨1, "Widget", none, 1, none, some 10, some 7⟩, some "Shelf A", some "Bin"⟩ 10 7
    ⟨10, "Shelf A", none, none, none⟩ ⟨7, 10, "Bin", 10, 20, 40, 60⟩
    (by decide) rfl (by decide) rfl (by decide) (by decide) (by decide)

/-- Lookup via `find?` is unaffected by filtering out elements the predicate cannot
select. -/
lemma find_in_filter {α : Type _} (p g : α → Bool)
    (himp : ∀ x, p x = true → g x = true) :
    ∀ l : List α, (l.filter g).find? p = l.find? p := by
  intro l
  induction l with
  | nil => rfl
  | cons a t ih =>
    by_cases hg : g a = true
    · by_cases hp : p a = true <;>
        simp [List.filter_cons, List.find?_cons, hg, hp, ih]
    · have hp : ¬p a = true := fun hpa => hg (himp a hpa)
      simp [List.filter_cons, List.find?_cons, hg, hp, ih]

/-- Claim C9: deleting a location removes only that location's row. Regions,
items and tags are untouched; a child location and a referencing item are
still readable afterwards and still carry the stale `parent_id` /
`location_id` of the now-missing location. -/
theorem delete_location_no_cascade :
    ∀ (db : DB) (L cid iid : Nat) (child : Location) (row : ItemRow),
      get_location_by_id db cid = some child → child.parent_id = some L →
      child.id ≠ L →
      get_inventory_item_by_id db iid = some row → row.item.location_id = some L →
      (delete_location db L).items = db.items
        ∧ (delete_location db L).regions = db.regions
        ∧ (delete_location db L).tags = db.tags
        ∧ get_location_by_id (delete_location db L) L = none
        ∧ (get_location_by_id (delete_location db L) cid = some child
            ∧ child.parent_id = some L)
        ∧ (∀ l ∈ db.locations, l.id ≠ L → l ∈ (delete_location db L).locations)
        ∧ (∃ row', get_inventory_item_by_id (delete_location db L) iid = some row'
            ∧ row'.item = row.item ∧ row'.item.location_id = some L) := by
  intro db L cid iid child row hchild hparent hne hitem hloc
  refine ⟨rfl, rfl, rfl, ?_, ⟨?_, hparent⟩, ?_, ?_⟩
  · rw [show get_location_by_id (delete_location db L) L
        = (db.locations.filter (fun l => l.id != L)).find? (fun l => l.id == L) from rfl,
      List.find?_eq_none]
    intro x hx
    have hxL : (x.id != L) = true := (List.mem_filter.mp hx).2
    simpa using hxL
  · have hcidL : cid ≠ L := by
      have := List.find?_some hchild
      have hcid : child.id = cid := by simpa using this
      rw [← hcid]; exact hne
    rw [show get_location_by_id (delete_location db L) cid
        = (db.locations.filter (fun l => l.id != L)).find? (fun l => l.id == cid) from rfl,
      find_in_filter]
    · exact hchild
    · intro x hx
      have : x.id = cid := by simpa using hx
      simp [this, hcidL]
  · intro l hl hlL
    simpa [delete_location, List.mem_filter, hl] using hlL
  · rcases Option.map_eq_some'.mp hitem with ⟨i, hfind, hrow⟩
    refine ⟨itemRow (delete_location db L) i, ?_, ?_, ?_⟩
    · show ((delete_location db L).items.find? (fun x => x.id == iid)).map
        (itemRow (delete_location db L)) = _
      rw [show (delete_location db L).items = db.items from rfl, hfind]
      rfl
    · rw [← hrow]; exact rfl
    · show i.location_id = some L
      have hri : row.item = i := by rw [← hrow]; exact rfl
      rw [← hri]; exact hloc

/-- A clean store with a parent location, a child, and an item stored in the
parent, for the deletion witness. -/
def c9Db : DB :=
  ⟨[⟨1, "Room", none, none, none⟩, ⟨2, "Shelf", none, some 1, none⟩],
   [], [⟨5, "Widget", none, 1, none, some 1, none⟩], []⟩

/-- Witness for claim C9: deleting location 1 of the concrete store leaves its
child location 2 and its item 5 readable, with the stale references. -/
theorem delete_location_no_cascade_witness :
    (delete_location c9Db 1).items = c9Db.items
      ∧ get_location_by_id (delete_location c9Db 1) 1 = none
      ∧ (get_location_by_id (delete_location c9Db 1) 2
          = some ⟨2, "Shelf", none, some 1, none⟩
          ∧ (⟨2, "Shelf", none, some 1, none⟩ : Location).parent_id = some 1)
      ∧ (∃ row', get_inventory_item_by_id (delete_location c9Db 1) 5 = some row'
          ∧ row'.item = (⟨5, "Widget", none, 1, none, some 1, none⟩ : Item)
          ∧ row'.item.location_id = some 1) := by
  have H := delete_location_no_cascade c9Db 1 2 5
    ⟨2, "Shelf", none, some 1, none⟩
    ⟨⟨5, "Widget", none, 1, none, some 1, none⟩, some "Room", none⟩
    (by decide) rfl (by decide) (by decide) rfl
  exact ⟨H.1, H.2.2.2.1, H.2.2.2.2.1, H.2.2.2.2.2.2⟩

/-- Lookup via `find?` over a map that rewrites exactly the selected elements, without
changing what the key selects. -/
lemma find_in_map_update {α : Type _} (key : α → Bool) (f : α → α)
    (hf : ∀ x, key (f x) = key x) :
    ∀ (l : List α) (a : α), l.find? key = some a →
      (l.map (fun x => if key x then f x else x)).find? key = some (f a) := by
  intro l
  induction l with
  | nil => intro a ha; cases ha
  | cons b t ih =>
    intro a ha
    by_cases hb : key b = true
    · have ha' : b = a := by simpa [List.find?_cons, hb] using ha
      subst ha'
      simp [List.find?_cons, hb, hf]
    · have ha' : t.find? key = some a := by simpa [List.find?_cons, hb] using ha
      have hstep : (List.map (fun x => if key x = true then f x else x) (b :: t)).find? key
          = (List.map (fun x => if key x = true then f x else x) t).find? key := by
        simp [List.find?_cons, hb]
      rw [hstep]
      exact ih a ha'

/-- Updating an item with the currently stored `image_path` (which is what the
update route passes when no new image is uploaded) rewrites exactly the
matching row: every column is set to the supplied value and `image_path`
stays the stored one. -/
lemma update_item_find (db : DB) (iid : Nat) (n : String) (d : Option String)
    (qv : Int) (lid rid : Option Nat) (i : Item)
    (hfind : db.items.find? (fun x => x.id == iid) = some i) :
    (update_inventory_item db iid n d qv i.image_path lid rid).items.find?
        (fun x => x.id == iid)
      = some { i with name := n, description := d, quantity := qv,
                      image_path := i.image_path, location_id := lid,
                      region_id := rid } := by
  rcases hip : i.image_path with _ | p
  · simp only [update_inventory_item, hip, hfind]
    exact find_in_map_update (fun x : Item => x.id == iid)
      (fun x => { x with name := n, description := d, quantity := qv,
                         image_path := none, location_id := lid, region_id := rid })
      (fun x => by simp) db.items i hfind
  · simp only [update_inventory_item, hip]
    exact find_in_map_update (fun x : Item => x.id == iid)
      (fun x => { x with name := n, description := d, quantity := qv,
                         image_path := some p, location_id := lid, region_id := rid })
      (fun x => by simp) db.items i hfind

/-- Claim C10: a PUT on an existing inventory item whose form omits the
`quantity` field stores quantity 1 — the previously stored quantity is not
retained — while an omitted image leaves `image_path` as stored. -/
theorem update_without_quantity_resets_to_one :
    ∀ (db : DB) (iid : Nat) (n : String) (form : UpdateItemForm) (row : ItemRow),
      get_inventory_item_by_id db iid = some row →
      form.quantity = none → form.image = none →
      ∃ db', update_inventory_item_route db iid n form = some db'
        ∧ ∃ row', get_inventory_item_by_id db' iid = some row'
            ∧ row'.item.quantity = 1
            ∧ row'.item.image_path = row.item.image_path
            ∧ row'.item.name = n := by
  intro db iid n form row h hq himg
  rcases Option.map_eq_some'.mp h with ⟨i, hfind, hrow⟩
  have hitem : row.item = i := by rw [← hrow]; exact rfl
  refine ⟨update_inventory_item db iid n form.description 1 row.item.image_path
      form.locationId form.regionId, ?_, ?_⟩
  · simp only [update_inventory_item_route, h, hq, himg]
  · rw [hitem]
    have hfind' := update_item_find db iid n form.description 1
      form.locationId form.regionId i hfind
    refine ⟨itemRow
        (update_inventory_item db iid n form.description 1 i.image_path
          form.locationId form.regionId)
        { i with name := n, description := form.description, quantity := 1,
                 image_path := i.image_path, location_id := form.locationId,
                 region_id := form.regionId }, ?_, rfl, rfl, rfl⟩
    show (_ : Option Item).map _ = _
    rw [hfind']
    rfl

/-- Witness for claim C10: updating item 5 of the concrete store with a form
that omits `quantity` stores quantity 1 even though 7 was stored, while the
stored image path survives. -/
theorem update_without_quantity_resets_to_one_witness :
    ∃ db', update_inventory_item_route
        ⟨[], [], [⟨5, "Widget", some "old", 7, some "w.png", none, none⟩],
         [⟨5, "widget"⟩]⟩ 5 "Widget"
        ⟨some "Widget", some "old", none, none, none, none⟩ = some db'
      ∧ ∃ row', get_inventory_item_by_id db' 5 = some row'
          ∧ row'.item.quantity = 1
          ∧ row'.item.image_path
              = (⟨⟨5, "Widget", some "old", 7, some "w.png", none, none⟩,
                  none, none⟩ : ItemRow).item.image_path
          ∧ row'.item.name = "Widget" :=
  update_without_quantity_resets_to_one
    ⟨[], [], [⟨5, "Widget", some "old", 7, some "w.png", none, none⟩], [⟨5, "widget"⟩]⟩
    5 "Widget" ⟨some "Widget", some "old", none, none, none, none⟩
    ⟨⟨5, "Widget", some "old", 7, some "w.png", none, none⟩, none, none⟩
    (by decide) rfl rfl

/-- The tag rows an insert or update leaves for the written item id: any
other rows (all with a different item id) filtered away, the freshly derived
rows kept; as strings these are the lowercased name followed by the long
description words. -/
lemma tagsFor_of_derived (iid : Nat) (name d : String) (hname : name ≠ "")
    (hd : d ≠ "") (rest : List Tag) (hrest : ∀ t ∈ rest, t.item_id ≠ iid) :
    ((rest ++ derivedTags iid name (some d)).filter
        (fun t => t.item_id == iid)).map Tag.tag
      = lowerStr name :: (splitWords (lowerStr d)).filter (fun w => w.length > 3) := by
  rw [List.filter_append]
  have h1 : rest.filter (fun t => t.item_id == iid) = [] := by
    rw [List.filter_eq_nil_iff]
    intro t ht
    simp [hrest t ht]
  have h2 : (derivedTags iid name (some d)).filter (fun t => t.item_id == iid)
      = derivedTags iid name (some d) := by
    rw [List.filter_eq_self]
    intro t ht
    simp only [derivedTags, hname, hd, if_true, ne_eq, not_false_iff, ite_true,
      List.mem_append, List.mem_singleton, List.mem_map] at ht
    rcases ht with ht | ⟨w, _, ht⟩ <;> subst ht <;> simp
  rw [h1, h2, List.nil_append]
  simp only [derivedTags, hname, hd, ne_eq, not_false_iff, ite_true, List.map_append,
    List.map_map, List.map_cons, List.map_nil, List.cons_append, List.nil_append]
  rw [List.cons_eq_cons]
  exact ⟨rfl, List.map_id _⟩

/-- Claim C3: for an item created or updated with a (non-empty) name and
description, the stored tag set is exactly the lowercased name plus the
lowercased whitespace-separated description words of length strictly greater
than 3; the description "a sturdy wooden shelf" contributes exactly sturdy,
wooden and shelf. -/
theorem derived_tags_exact_set :
    (∀ (db : DB) (name d : String) (qty : Int) (img : Option String)
        (lid rid : Option Nat),
        name ≠ "" → d ≠ "" →
        (∀ t ∈ db.tags, t.item_id ≠ nextItemId db) →
        ∀ s, s ∈ tagsFor (add_inventory_item db name (some d) qty img lid rid).1
            (add_inventory_item db name (some d) qty img lid rid).2
          ↔ (s = lowerStr name ∨ (s ∈ splitWords (lowerStr d) ∧ s.length > 3)))
      ∧ (∀ (db : DB) (iid : Nat) (name d : String) (qty : Int) (img : Option String)
          (lid rid : Option Nat),
          name ≠ "" → d ≠ "" →
          ∀ s, s ∈ tagsFor (update_inventory_item db iid name (some d) qty img lid rid) iid
            ↔ (s = lowerStr name ∨ (s ∈ splitWords (lowerStr d) ∧ s.length > 3)))
      ∧ tagsFor (add_inventory_item ⟨[], [], [], []⟩ "Widget"
            (some "a sturdy wooden shelf") 1 none none none).1
          (add_inventory_item ⟨[], [], [], []⟩ "Widget"
            (some "a sturdy wooden shelf") 1 none none none).2
        = ["widget", "sturdy", "wooden", "shelf"] := by
  refine ⟨?_, ?_, by decide⟩
  · intro db name d qty img lid rid hname hd hfresh s
    have hkey := tagsFor_of_derived (nextItemId db) name d hname hd db.tags hfresh
    rw [show tagsFor (add_inventory_item db name (some d) qty img lid rid).1
          (add_inventory_item db name (some d) qty img lid rid).2
        = ((db.tags ++ derivedTags (nextItemId db) name (some d)).filter
            (fun t => t.item_id == nextItemId db)).map Tag.tag from rfl, hkey]
    simp [List.mem_filter]
  · intro db iid name d qty img lid rid hname hd s
    have hrest : ∀ t ∈ db.tags.filter (fun t => t.item_id != iid), t.item_id ≠ iid := by
      intro t ht
      simpa using (List.mem_filter.mp ht).2
    have hkey := tagsFor_of_derived iid name d hname hd
      (db.tags.filter (fun t => t.item_id != iid)) hrest
    rw [show tagsFor (update_inventory_item db iid name (some d) qty img lid rid) iid
        = ((db.tags.filter (fun t => t.item_id != iid)
            ++ derivedTags iid name (some d)).filter
              (fun t => t.item_id == iid)).map Tag.tag from rfl, hkey]
    simp [List.mem_filter]

/-- Witness for claim C3: creating "Widget" with description "a sturdy wooden
shelf" in the empty store; the tag characterization instantiated at "sturdy". -/
theorem derived_tags_exact_set_witness :
    ("Widget" ≠ "" ∧ "a sturdy wooden shelf" ≠ "")
      ∧ ("sturdy" ∈ tagsFor (add_inventory_item ⟨[], [], [], []⟩ "Widget"
            (some "a sturdy wooden shelf") 1 none none none).1
          (add_inventory_item ⟨[], [], [], []⟩ "Widget"
            (some "a sturdy wooden shelf") 1 none none none).2
          ↔ ("sturdy" = lowerStr "Widget"
              ∨ ("sturdy" ∈ splitWords (lowerStr "a sturdy wooden shelf")
                  ∧ ("sturdy" : String).length > 3))) :=
  ⟨⟨by decide, by decide⟩,
   derived_tags_exact_set.1 ⟨[], [], [], []⟩ "Widget" "a sturdy wooden shelf" 1
     none none none (by decide) (by decide) (by simp) "sturdy"⟩

/-- Claim C1: search results come back sorted ascending by the ranking tier
(1 name starts with the query, 2 name merely contains it, 3 description
contains it, 4 tag-only), and on the spec's example store the query "Widget"
returns the exact-name item, then "Blue Widget", then the description match. -/
theorem search_ranking_by_tier :
    (∀ (db : DB) (q : String), List.Sorted (tierLE q) (search_items db q))
      ∧ (search_items exDb "Widget").map (fun r => r.item.name)
          = ["Widget", "Blue Widget", "Shelf"]
      ∧ tierOf "Widget" ⟨1, "Widget", none, 1, none, none, none⟩ = 1
      ∧ tierOf "Widget" ⟨2, "Blue Widget", none, 1, none, none, none⟩ = 2
      ∧ tierOf "Widget" ⟨3, "Shelf", some "widget-like holder", 1, none, none, none⟩ = 3 := by
  refine ⟨?_, by decide, by decide, by decide, by decide⟩
  intro db q
  by_cases hq : q = ""
  · simp [search_items, hq]
  · unfold search_items
    rw [if_neg hq]
    exact List.sorted_insertionSort (tierLE q) _

/-- Every row of the tag join carries an item of the store. -/
lemma tagJoinRows_fst (db : DB) :
    ∀ pr ∈ tagJoinRows db, pr.1 ∈ db.items := by
  intro pr h
  rcases List.mem_flatMap.mp h with ⟨a, ha, hin⟩
  rcases hne : db.tags.filter (fun t => t.item_id == a.id) with _ | ⟨tg, ts'⟩
  · have : pr = (a, none) := by simpa [hne] using hin
    rw [this]; exact ha
  · have : pr ∈ (tg :: ts').map (fun t => (a, some t.tag)) := by simpa [hne] using hin
    rcases List.mem_map.mp this with ⟨t, _, hpr⟩
    rw [← hpr]; exact ha

/-- An item with no tag rows contributes the null-tag row to the join. -/
lemma mem_tagJoinRows_none (db : DB) (i : Item) (hmem : i ∈ db.items)
    (hempty : db.tags.filter (fun t => t.item_id == i.id) = []) :
    (i, (none : Option String)) ∈ tagJoinRows db := by
  apply List.mem_flatMap.mpr
  exact ⟨i, hmem, by simp [hempty]⟩

/-- Each tag row of an item contributes a join row with that tag. -/
lemma mem_tagJoinRows_of_tag (db : DB) (i : Item) (t : Tag) (hmem : i ∈ db.items)
    (ht : t ∈ db.tags.filter (fun tg => tg.item_id == i.id)) :
    (i, some t.tag) ∈ tagJoinRows db := by
  apply List.mem_flatMap.mpr
  refine ⟨i, hmem, ?_⟩
  rcases hne : db.tags.filter (fun tg => tg.item_id == i.id) with _ | ⟨tg, ts'⟩
  · rw [hne] at ht; cases ht
  · rw [hne] at ht
    simp only [hne, List.isEmpty_cons, if_false, Bool.false_eq_true]
    exact List.mem_map.mpr ⟨t, ht, rfl⟩

/-- A matching item owns at least one join row that passes the `WHERE`
clause. -/
lemma exists_matching_row (db : DB) (q : String) (i : Item)
    (hmem : i ∈ db.items) (hmatch : itemMatches db q i = true) :
    ∃ pr ∈ (tagJoinRows db).filter (rowMatches q), pr.1 = i := by
  have hmatch' : likeContains i.name q = true ∨ optLikeContains i.description q = true
      ∨ ∃ t ∈ db.tags, t.item_id = i.id ∧ likeContains t.tag q = true := by
    simpa [itemMatches, List.any_eq_true, List.mem_filter, or_assoc] using hmatch
  have hrowOf : ∀ t : Option String, (i, t) ∈ tagJoinRows db →
      rowMatches q (i, t) = true →
      ∃ pr ∈ (tagJoinRows db).filter (rowMatches q), pr.1 = i := by
    intro t hmem' hrm
    exact ⟨(i, t), List.mem_filter.mpr ⟨hmem', hrm⟩, rfl⟩
  have viaNameDesc : likeContains i.name q = true ∨ optLikeContains i.description q = true →
      ∃ pr ∈ (tagJoinRows db).filter (rowMatches q), pr.1 = i := by
    intro h
    rcases hne : db.tags.filter (fun t => t.item_id == i.id) with _ | ⟨tg, ts'⟩
    · refine hrowOf none (mem_tagJoinRows_none db i hmem hne) ?_
      rcases h with h | h <;> simp [rowMatches, h]
    · refine hrowOf (some tg.tag)
        (mem_tagJoinRows_of_tag db i tg hmem (by rw [hne]; exact List.mem_cons_self tg ts')) ?_
      rcases h with h | h <;> simp [rowMatches, h]
  rcases hmatch' with h | h | ⟨t, ht, hmid, htq⟩
  · exact viaNameDesc (Or.inl h)
  · exact viaNameDesc (Or.inr h)
  · exact hrowOf (some t.tag)
      (mem_tagJoinRows_of_tag db i t hmem (List.mem_filter.mpr ⟨ht, by simp [hmid]⟩))
      (by simp [rowMatches, optLikeContains, htq])

/-- Claim C7: for a non-empty query, every matching item appears exactly once
in the search results, even when several of its tag rows match: the duplicate
rows of the tag join are collapsed before ranking. (Item ids are assumed
unique, as the primary key guarantees.) -/
theorem search_no_duplicate_items :
    ∀ (db : DB) (q : String) (i : Item),
      (db.items.map Item.id).Nodup → i ∈ db.items → q ≠ "" →
      itemMatches db q i = true →
      (search_items db q).countP (fun r => r.item.id == i.id) = 1 := by
  intro db q i hnodup hmem hq hmatch
  unfold search_items
  rw [if_neg hq]
  rw [(List.perm_insertionSort (tierLE q) _).countP_eq]
  have hmemproj : itemRow db i ∈ ((tagJoinRows db).filter (rowMatches q)).map
      (fun row => itemRow db row.1) := by
    rcases exists_matching_row db q i hmem hmatch with ⟨pr, hpr, hfst⟩
    exact List.mem_map.mpr ⟨pr, hpr, by rw [hfst]⟩
  have hmemdedup : itemRow db i ∈ (((tagJoinRows db).filter (rowMatches q)).map
      (fun row => itemRow db row.1)).dedup := List.mem_dedup.mpr hmemproj
  have huniq : ∀ r ∈ (((tagJoinRows db).filter (rowMatches q)).map
      (fun row => itemRow db row.1)).dedup,
      (r.item.id == i.id) = true → r = itemRow db i := by
    intro r hr hid
    rcases List.mem_map.mp (List.mem_dedup.mp hr) with ⟨pr, hpr, hre⟩
    have hfst : pr.1 ∈ db.items := tagJoinRows_fst db pr (List.mem_filter.mp hpr).1
    have hritem : r.item = pr.1 := by rw [← hre]; exact rfl
    have hideq : pr.1.id = i.id := by simpa [hritem] using hid
    have heq : pr.1 = i := List.inj_on_of_nodup_map hnodup hfst hmem hideq
    rw [← hre, heq]
  have hcongr : (((tagJoinRows db).filter (rowMatches q)).map
      (fun row => itemRow db row.1)).dedup.countP (fun r => r.item.id == i.id)
      = (((tagJoinRows db).filter (rowMatches q)).map
          (fun row => itemRow db row.1)).dedup.countP (fun r => r == itemRow db i) := by
    apply List.countP_congr
    intro r hr
    constructor
    · intro h
      simp [huniq r hr h]
    · intro h
      have hre : r = itemRow db i := by simpa using h
      rw [hre]
      simp [itemRow]
  rw [hcongr]
  rw [show (((tagJoinRows db).filter (rowMatches q)).map
      (fun row => itemRow db row.1)).dedup.countP (fun r => r == itemRow db i)
      = (((tagJoinRows db).filter (rowMatches q)).map
          (fun row => itemRow db row.1)).dedup.count (itemRow db i) from rfl]
  exact List.count_eq_one_of_mem (List.nodup_dedup _) hmemdedup

/-- Witness for claim C7: in the store where item 1's tag rows contain
"widget" twice (name tag and description word), the query "widget" still
returns the item exactly once. -/
theorem search_no_duplicate_items_witness :
    ((multiTagDb.items.map Item.id).Nodup
        ∧ itemMatches multiTagDb "widget" ⟨1, "Widget", some "fancy widget gadget",
            1, none, none, none⟩ = true)
      ∧ (search_items multiTagDb "widget").countP (fun r => r.item.id == 1) = 1 :=
  ⟨⟨by decide, by decide⟩,
   search_no_duplicate_items multiTagDb "widget"
     ⟨1, "Widget", some "fancy widget gadget", 1, none, none, none⟩
     (by decide) (by decide) (by decide) (by decide)⟩

end Inventory
